import Mathlib

/-!
Verification development for the LuckyStake backend (twinkle831/LuckyStake).

The definitions below are a shallow embedding of the backend's store and of
the state-mutating operations the claims are about:

* `src/backend/src/routes/deposits.js` — POST /api/deposits,
  POST /api/deposits/:id/withdraw, POST /api/deposits/:id/claim-complete;
* `src/backend/src/services/cron-draw.js` — `pickWinner`, `runDrawForPool`,
  `_recordAndPayout`;
* `src/backend/src/services/payout-service.js` — `sendXLMPayment`,
  `processDrawPayouts`;
* `src/backend/src/routes/pools.js` — GET /api/pools;
* `src/backend/src/services/pool-contract.js` — the exported member list;
* `src/backend/src/services/stellar-service.js` — `verifyDepositTransaction`.

JavaScript numbers holding XLM amounts are modelled as rationals (`ℚ`); every
concrete amount used in a theorem is exactly representable as a double, and
every arithmetic step performed on it by the code (sums and differences of
7-decimal amounts, `toFixed(7)`, `Math.floor` of small products) is exact on
doubles at those inputs, so the rational model agrees with the JS semantics
there.  Timestamps are abstracted as naturals, uuids as naturals, and the
outcomes of external calls (Horizon payments, Soroban reads and invokes) are
passed in as explicit parameters.
-/

namespace LuckyStake

/-- The three pool types of the backend (`store.js` `defaultPools`;
validated in `routes/deposits.js` line 34). -/
inductive PoolType where
  | weekly
  | biweekly
  | monthly
deriving DecidableEq, Repr

instance : Fintype PoolType :=
  ⟨⟨{PoolType.weekly, PoolType.biweekly, PoolType.monthly}, by decide⟩, by
    intro x; cases x <;> decide⟩

/-- `ticketMultipliers` of `routes/deposits.js` lines 59-63:
weekly 7, biweekly 15, monthly 30. -/
def ticketMultiplier : PoolType → ℤ
  | .weekly => 7
  | .biweekly => 15
  | .monthly => 30

/-- `routes/deposits.js` line 64:
`tickets = Math.floor(amount * (ticketMultipliers[poolType] || 7))`.
`poolType` is already validated, so the `|| 7` fallback is dead. -/
def computeTickets (amount : ℚ) (pt : PoolType) : ℤ :=
  Int.floor (amount * (ticketMultiplier pt : ℚ))

/-- One stroop, the smallest XLM unit; the deposit route's minimum amount
(`routes/deposits.js` line 37). -/
def stroop : ℚ := 1 / 10000000

/-- A deposit record as stored in `store.deposits`
(`routes/deposits.js` lines 68-78 and the mutations elsewhere). -/
structure Deposit where
  id : Nat
  publicKey : String
  poolType : PoolType
  amount : ℚ
  tickets : ℤ
  withdrawnAt : Option Nat := none
  payoutAt : Option Nat := none
  payoutTxHash : Option String := none
  payoutType : Option String := none
  prizeTxHash : Option String := none
deriving DecidableEq, Repr

/-- A pool record as stored in `store.pools` (`store.js` `defaultPools`). -/
structure Pool where
  totalDeposited : ℚ
  participants : Nat
  yieldAccrued : ℚ
  nextDraw : Nat
  prizeHistory : List (ℚ × Option String)
deriving DecidableEq, Repr

/-- A user record as stored in `store.users`. -/
structure User where
  totalDeposited : ℚ
  tickets : ℤ
deriving DecidableEq, Repr

/-- `store.load` guarantees the three pools always exist, so `store.pools`
is modelled as a total map with one field per pool type. -/
structure Pools where
  weekly : Pool
  biweekly : Pool
  monthly : Pool
deriving DecidableEq, Repr

def Pools.get (ps : Pools) : PoolType → Pool
  | .weekly => ps.weekly
  | .biweekly => ps.biweekly
  | .monthly => ps.monthly

def Pools.set (ps : Pools) : PoolType → Pool → Pools
  | .weekly, p => { ps with weekly := p }
  | .biweekly, p => { ps with biweekly := p }
  | .monthly, p => { ps with monthly := p }

/-- A draw record as built by `_recordAndPayout`
(`cron-draw.js` lines 144-155). -/
structure DrawRecord where
  id : Nat
  poolType : PoolType
  winner : Option String
  prizeAmount : ℚ
  participants : Nat
  totalTickets : ℤ
  contractTxHash : Option String
  payoutStatus : String
  txHashes : List String
deriving DecidableEq, Repr

/-- A prize record as built by `_recordAndPayout`
(`cron-draw.js` lines 158-168). -/
structure PrizeRecord where
  id : Nat
  winner : Option String
  amount : ℚ
  poolType : PoolType
deriving DecidableEq, Repr

/-- The backend store (`services/store.js`): JS `Map`s become lists with
unique keys, `store.pools` the total `Pools` map. -/
structure Store where
  deposits : List Deposit
  pools : Pools
  users : List (String × User)
  draws : List DrawRecord
  prizes : List PrizeRecord
deriving DecidableEq, Repr

/-! ## cron-draw.js: pickWinner -/

/-- JavaScript `d.tickets || 1` (`cron-draw.js` line 31, and line 150):
`0` is falsy, so a zero ticket count is replaced by `1`. -/
def jsOrOne (t : ℤ) : ℤ :=
  if t = 0 then 1 else t

/-- The number of pool entries `pickWinner` builds for one deposit:
`Array(Math.max(1, d.tickets || 1))` (`cron-draw.js` line 31). -/
def entryCount (d : Deposit) : Nat :=
  (max 1 (jsOrOne d.tickets)).toNat

/-- The flat selection pool `tickets` built by `pickWinner`
(`cron-draw.js` lines 30-32): for each active deposit,
`max(1, d.tickets || 1)` copies of its public key. -/
def pickWinnerPool (activeDeposits : List Deposit) : List String :=
  activeDeposits.flatMap (fun d => List.replicate (entryCount d) d.publicKey)

/-- `pickWinner` (`cron-draw.js` lines 29-34) with the random draw made
explicit: `r = Math.floor(Math.random() * tickets.length)` is a uniform
index into the pool, and the winner is the entry at that index. -/
def pickWinner (activeDeposits : List Deposit) (r : Nat) : Option String :=
  (pickWinnerPool activeDeposits).get? r

/-! ## payout-service.js -/

/-- `amountXLM.toFixed(7)` (`payout-service.js` line 61): the payment
amount string carries the value rounded to 7 decimal places, ties away
from the smaller integer (ECMAScript `Number.prototype.toFixed`). -/
def toFixed7 (q : ℚ) : ℚ :=
  (Int.floor (q * 10000000 + 1 / 2) : ℚ) / 10000000

/-- The XLM amount actually placed in the Horizon payment operation by
`sendXLMPayment` (`payout-service.js` lines 47-76). -/
def sendXLMPaymentAmount (amountXLM : ℚ) : ℚ :=
  toFixed7 amountXLM

/-- A Horizon payment built by `sendXLMPayment`: recipient and the amount
put in the payment operation. -/
structure PaymentReq where
  recipient : String
  amount : ℚ
deriving DecidableEq, Repr

/-- One entry of the result list of `processDrawPayouts`
(`payout-service.js` lines 101-163): `txHash = none` models the
`txHash: null, error: <message>` failure entries. -/
structure PayoutRes where
  depositId : Option Nat
  publicKey : String
  kind : String
  amount : ℚ
  txHash : Option String
deriving DecidableEq, Repr

/-- `processDrawPayouts` (`payout-service.js` lines 89-167).
`pay recipient amount` is the outcome of `sendXLMPayment`: `some hash`
on success, `none` when Horizon rejected the payment.
Step 1 sends the prize to the winner only if there is a winner and a
positive prize; step 2 sends every listed deposit's principal back,
skipping entries without a public key or positive amount. -/
def processDrawPayouts (prizeAmount : ℚ) (winner : Option String)
    (deposits : List Deposit) (pay : String → ℚ → Option String) :
    List PayoutRes :=
  let prizeResults : List PayoutRes :=
    match winner with
    | some w =>
        if 0 < prizeAmount then
          [{ depositId := none, publicKey := w, kind := "prize",
             amount := prizeAmount, txHash := pay w prizeAmount }]
        else []
    | none => []
  let refundResults : List PayoutRes :=
    deposits.filterMap (fun d =>
      if d.publicKey ≠ "" ∧ 0 < d.amount then
        some { depositId := some d.id, publicKey := d.publicKey,
               kind := "refund", amount := d.amount,
               txHash := pay d.publicKey d.amount }
      else none)
  prizeResults ++ refundResults

/-! ## pool-contract.js and the GET /api/pools route -/

/-- The `module.exports` member list of `services/pool-contract.js`
(lines 218-229). -/
def poolContractExports : List String :=
  ["getServer", "simulateRead", "getSuppliedToBlend", "getPrizeFund",
   "harvestYield", "withdrawFromBlend", "executeDraw", "getUserBalance",
   "getContractId", "scValI128"]

/-- Calling a member of the `pool-contract` module: if the name is not
exported the call throws (`TypeError: not a function`), modelled as
`none`; otherwise it returns the value the chain would supply. -/
def callPoolContract (member : String) (chainValue : ℤ) : Option ℤ :=
  if member ∈ poolContractExports then some chainValue else none

/-- `MIN_PRIZE_XLM` (`routes/pools.js` line 10). -/
def MIN_PRIZE_XLM : ℚ := 100

/-- The `try` block of GET /api/pools (`routes/pools.js` lines 31-39):
both reads must succeed, otherwise the `catch` leaves both at `0`. -/
def poolsOnChainRead (prizeFundChain totalDepositsChain : ℤ) : ℤ × ℤ :=
  (do
    let pf ← callPoolContract "getPrizeFund" prizeFundChain
    let td ← callPoolContract "getTotalDeposits" totalDepositsChain
    pure (pf, td)).getD (0, 0)

/-- The `(prizeFundXlm, totalDepositsXlm)` pair reported for one pool by
GET /api/pools (`routes/pools.js` lines 41-64), as a function of the
values the chain would return for the two reads. -/
def poolsRouteView (prizeFundChain totalDepositsChain : ℤ) : ℚ × ℚ :=
  let (pf, td) := poolsOnChainRead prizeFundChain totalDepositsChain
  let prizeXlm : ℚ := (pf : ℚ) / 10000000
  let totalDepositsXlm : ℚ := (td : ℚ) / 10000000
  (max prizeXlm MIN_PRIZE_XLM, totalDepositsXlm)

/-! ## routes/deposits.js -/

/-- Update a JS-`Map` entry in place: apply `f` to the record whose `id`
matches (ids are unique `Map` keys, so at most one record changes). -/
def updateDeposit (l : List Deposit) (i : Nat) (f : Deposit → Deposit) :
    List Deposit :=
  l.map (fun d => if d.id = i then f d else d)

/-- Update a `store.users` entry if present (`if (user)` guards in
`routes/deposits.js`). -/
def updateUser (l : List (String × User)) (key : String)
    (f : User → User) : List (String × User) :=
  l.map (fun p => if p.1 = key then (p.1, f p.2) else p)

/-- `store.deposits.get(id)` — JS `Map.get`. -/
def findDeposit (l : List Deposit) (i : Nat) : Option Deposit :=
  l.find? (fun d => d.id = i)

/-- `store.users.get(key)` — JS `Map.get`. -/
def findUser (l : List (String × User)) (key : String) : Option User :=
  (l.find? (fun p => p.1 = key)).map (·.2)

/-- `countUniqueParticipants` (`routes/deposits.js` lines 224-230):
distinct public keys among the pool's non-withdrawn deposits. -/
def countUniqueParticipants (pt : PoolType) (l : List Deposit) : Nat :=
  (((l.filter (fun d => d.poolType = pt ∧ d.withdrawnAt = none)).map
    (·.publicKey)).dedup).length

/-- `parsePoolType` — `routes/deposits.js` line 34's membership test on the
lower-cased pool type string. -/
def parsePoolType : String → Option PoolType
  | "weekly" => some .weekly
  | "biweekly" => some .biweekly
  | "monthly" => some .monthly
  | _ => none

/-- What `verifyDepositTransaction` (`services/stellar-service.js` lines
51-101) returns when the transaction is found and successful.  Per line 96
the returned `amount` is the client's `expectedAmount` itself, so only the
depositor and metadata are data of the verification. -/
structure Verified where
  depositor : String
  timestamp : Nat
  ledger : Nat
deriving DecidableEq, Repr

/-- The response of POST /api/deposits (`routes/deposits.js` lines 24-102). -/
inductive DepositResponse where
  | missingFields
  | badPoolType
  | badAmount
  | verifyFailed
  | wrongDepositor
  | created (dep : Deposit)
deriving DecidableEq, Repr

/-- The validation steps of POST /api/deposits (`routes/deposits.js`
lines 26-39), before on-chain verification.  `amount = none` models a
missing or NaN amount (line 27's conversion always yields a number, so
the `typeof` part of line 37 cannot fire). -/
def validateDeposit (rawPoolType : Option String) (amount : Option ℚ)
    (txHash : Option String) : Option DepositResponse :=
  let ptStr := rawPoolType.getD ""
  if ptStr = "" ∨ amount = none ∨ txHash = none ∨ txHash = some "" then
    some .missingFields
  else if parsePoolType ptStr = none then
    some .badPoolType
  else if amount.getD 0 < stroop then
    some .badAmount
  else
    none

/-- POST /api/deposits (`routes/deposits.js` lines 24-102).
`verification` is the outcome of `verifyDepositTransaction` (`none` when
it threw); `freshId` is the uuid of the new record.  On success the
deposit is recorded with the verified (= requested) amount and
`tickets = Math.floor(amount × multiplier)`, the pool totals grow and the
user record (when present) is updated. -/
def postDeposit (st : Store) (requester : String)
    (rawPoolType : Option String) (amount : Option ℚ) (txHash : Option String)
    (verification : Option Verified) (freshId : Nat) :
    DepositResponse × Store :=
  match validateDeposit rawPoolType amount txHash with
  | some e => (e, st)
  | none =>
    match parsePoolType (rawPoolType.getD ""), amount, txHash with
    | some pt, some a, some _tx =>
      match verification with
      | none => (.verifyFailed, st)
      | some v =>
        if v.depositor ≠ requester then (.wrongDepositor, st)
        else
          let dep : Deposit :=
            { id := freshId, publicKey := v.depositor, poolType := pt,
              amount := a, tickets := computeTickets a pt,
              withdrawnAt := none }
          let deposits' := st.deposits ++ [dep]
          let pool := st.pools.get pt
          let pool' :=
            { pool with totalDeposited := pool.totalDeposited + a,
                        participants := countUniqueParticipants pt deposits' }
          let users' := updateUser st.users requester (fun u =>
            { u with totalDeposited := u.totalDeposited + a,
                     tickets := u.tickets + dep.tickets })
          (.created dep,
           { st with deposits := deposits', pools := st.pools.set pt pool',
                     users := users' })
    | _, _, _ => (.missingFields, st)

/-- The response of POST /api/deposits/:id/withdraw
(`routes/deposits.js` lines 167-221). -/
inductive WithdrawResponse where
  | notFound
  | notYours
  | alreadyWithdrawn
  | paymentFailed
  | ok (txHash : String)
deriving DecidableEq, Repr

/-- The outcome of the withdraw route: HTTP-level result, the store after
the call, and the Horizon payment built by `sendXLMPayment` when the
route reached it (`none` when a guard failed first). -/
structure WithdrawOutcome where
  response : WithdrawResponse
  store : Store
  payment : Option PaymentReq
deriving DecidableEq, Repr

/-- POST /api/deposits/:id/withdraw (`routes/deposits.js` lines 167-221).
Guards: deposit exists, belongs to the requester, not yet withdrawn.
Then `sendXLMPayment(deposit.publicKey, deposit.amount, …)` is attempted
(`payOutcome` is its result); on failure the route returns 502 with the
store untouched; on success the deposit is marked withdrawn and the pool
and user totals are clamped-decremented. -/
def withdrawOp (st : Store) (requester : String) (depId : Nat)
    (payOutcome : Option String) (now : Nat) : WithdrawOutcome :=
  match findDeposit st.deposits depId with
  | none => ⟨.notFound, st, none⟩
  | some dep =>
    if dep.publicKey ≠ requester then ⟨.notYours, st, none⟩
    else if dep.withdrawnAt ≠ none then ⟨.alreadyWithdrawn, st, none⟩
    else
      let req : PaymentReq :=
        ⟨dep.publicKey, sendXLMPaymentAmount dep.amount⟩
      match payOutcome with
      | none => ⟨.paymentFailed, st, some req⟩
      | some tx =>
        let deposits' := updateDeposit st.deposits depId (fun d =>
          { d with withdrawnAt := some now, payoutAt := some now,
                   payoutTxHash := some tx, payoutType := some "refund" })
        let pool := st.pools.get dep.poolType
        let pool' :=
          { pool with
              totalDeposited := max 0 (pool.totalDeposited - dep.amount),
              participants := countUniqueParticipants dep.poolType deposits' }
        let users' := updateUser st.users requester (fun u =>
          { u with tickets := max 0 (u.tickets - dep.tickets) })
        ⟨.ok tx,
         { st with deposits := deposits',
                   pools := st.pools.set dep.poolType pool',
                   users := users' }, some req⟩

/-- The response of POST /api/deposits/:id/claim-complete
(`routes/deposits.js` lines 135-164). -/
inductive ClaimResponse where
  | notFound
  | notYours
  | alreadyClaimed
  | missingTxHash
  | ok
deriving DecidableEq, Repr

/-- POST /api/deposits/:id/claim-complete (`routes/deposits.js` lines
135-164): after an on-chain principal claim, record the tx hash, mark
the deposit withdrawn, and clamp-decrement the pool total and the user's
tickets. -/
def claimCompleteOp (st : Store) (requester : String) (depId : Nat)
    (txHash : String) (now : Nat) : ClaimResponse × Store :=
  match findDeposit st.deposits depId with
  | none => (.notFound, st)
  | some dep =>
    if dep.publicKey ≠ requester then (.notYours, st)
    else if dep.withdrawnAt ≠ none then (.alreadyClaimed, st)
    else if txHash.trim = "" then (.missingTxHash, st)
    else
      let deposits' := updateDeposit st.deposits depId (fun d =>
        { d with withdrawnAt := some now, payoutAt := some now,
                 payoutTxHash := some txHash,
                 payoutType :=
                   if d.payoutType = some "win" then d.payoutType
                   else some "refund" })
      let pool := st.pools.get dep.poolType
      let pool' :=
        { pool with
            totalDeposited := max 0 (pool.totalDeposited - dep.amount),
            participants := countUniqueParticipants dep.poolType deposits' }
      let users' := updateUser st.users requester (fun u =>
        { u with tickets := max 0 (u.tickets - dep.tickets) })
      (.ok,
       { st with deposits := deposits',
                 pools := st.pools.set dep.poolType pool',
                 users := users' })

/-! ## cron-draw.js: runDrawForPool and _recordAndPayout -/

/-- The `results` object assembled by `runDrawForPool`
(`cron-draw.js` lines 52 and onward), restricted to the fields the
claims are about. -/
structure RunResults where
  error : Option String := none
  drawSuccess : Option Bool := none
  drawMode : Option String := none
  drawHash : Option String := none
  payoutStatus : Option String := none
deriving DecidableEq, Repr

/-- The marking applied to a deposit by the admin-payout loop of
`_recordAndPayout` (`cron-draw.js` lines 198-206): every payout result
carrying a deposit id marks that deposit withdrawn — even a failed
refund (`pr.txHash` may be null). -/
def markPaidOut (winner : Option String) (now : Nat) (pr : PayoutRes)
    (d : Deposit) : Deposit :=
  { d with withdrawnAt := some now, payoutAt := some now,
           payoutTxHash := pr.txHash,
           payoutType :=
             if some d.publicKey = winner then some "win"
             else some "refund" }

/-- The deposit-store mutation of the admin-payout loop
(`cron-draw.js` lines 196-207): fold the payout results over the store. -/
def applyPayoutMarks (winner : Option String) (now : Nat)
    (deposits : List Deposit) (payoutResults : List PayoutRes) :
    List Deposit :=
  payoutResults.foldl (fun acc pr =>
    match pr.depositId with
    | some i => updateDeposit acc i (markPaidOut winner now pr)
    | none => acc) deposits

/-- `_recordAndPayout` (`cron-draw.js` lines 142-228): record the draw
and the prize, mark the winner's deposit with the on-chain prize hash,
reset `yieldAccrued`, and — when admin payouts are enabled — run
`processDrawPayouts` and mark every paid deposit withdrawn.  Finally the
pool's `nextDraw` is advanced (`newNextDraw` stands for the host-clock
computation of `store.advanceNextDraw`).  The payout loop reads only the
`publicKey` and `amount` of the active deposits, which the preceding
winner marking does not touch, so it is applied to the pre-marking
filter of the store. -/
def recordAndPayout (st : Store) (pt : PoolType) (prizeAmount : ℚ)
    (winner : Option String) (results0 : RunResults)
    (contractTxHash : Option String) (useOnchainPayouts : Bool)
    (pay : String → ℚ → Option String)
    (drawId prizeId now newNextDraw : Nat) : RunResults × Store :=
  let activeDeposits := st.deposits.filter
    (fun d => d.poolType = pt ∧ d.withdrawnAt = none)
  let totalTickets := (activeDeposits.map (fun d => jsOrOne d.tickets)).sum
  let deposits1 :=
    match winner, contractTxHash with
    | some w, some h =>
      match st.deposits.find? (fun d =>
          d.poolType = pt ∧ d.withdrawnAt = none ∧ d.publicKey = w) with
      | some d0 => updateDeposit st.deposits d0.id (fun d =>
          { d with prizeTxHash := some h, payoutType := some "win",
                   payoutAt := some now })
      | none => st.deposits
    | _, _ => st.deposits
  let doPayouts := ¬useOnchainPayouts ∧ activeDeposits ≠ []
  let payoutResults :=
    if doPayouts then processDrawPayouts prizeAmount winner activeDeposits pay
    else []
  let deposits2 :=
    if doPayouts then applyPayoutMarks winner now deposits1 payoutResults
    else deposits1
  let payoutStatus :=
    if doPayouts then
      if payoutResults.all (fun pr => pr.txHash ≠ none) then "complete"
      else "partial"
    else if useOnchainPayouts then "claimable" else "pending"
  let txHashes :=
    (contractTxHash.toList) ++ payoutResults.filterMap (·.txHash)
  let drawRecord : DrawRecord :=
    { id := drawId, poolType := pt, winner := winner,
      prizeAmount := prizeAmount, participants := activeDeposits.length,
      totalTickets := totalTickets, contractTxHash := contractTxHash,
      payoutStatus := payoutStatus, txHashes := txHashes }
  let prizeRecord : PrizeRecord :=
    { id := prizeId, winner := winner, amount := prizeAmount,
      poolType := pt }
  let pool := st.pools.get pt
  let pool' :=
    { pool with yieldAccrued := 0,
                prizeHistory := pool.prizeHistory ++ [(prizeAmount, winner)],
                nextDraw := newNextDraw }
  ({ results0 with payoutStatus := some payoutStatus },
   { st with deposits := deposits2,
             pools := st.pools.set pt pool',
             draws := st.draws ++ [drawRecord],
             prizes := st.prizes ++ [prizeRecord] })

/-- `runDrawForPool` (`cron-draw.js` lines 47-136) for one pool, with the
external world explicit: `prizeFundChain` and `totalDepositsChain` are
the on-chain pre-flight reads (lines 67-77), `drawCall` is the outcome
of the on-chain `execute_draw` invocation — `none` if it threw (caught
at line 131, store untouched), `some (hash, winner)` on success.

With `totalDeposits ≤ 0` the run stops with the "No deposits" error and
no store change.  With `prizeFund ≤ 0` the on-chain draw is *skipped*
(line 113) but the run still proceeds to `_recordAndPayout` in
"principal-only" mode.  The harvest and withdraw-from-Blend steps only
touch the chain, never the store, and are omitted. -/
def runDrawForPool (st : Store) (pt : PoolType)
    (prizeFundChain totalDepositsChain : ℤ)
    (useOnchainPayouts : Bool)
    (drawCall : Option (String × Option String))
    (pay : String → ℚ → Option String)
    (drawId prizeId now newNextDraw : Nat) : RunResults × Store :=
  if totalDepositsChain ≤ 0 then
    ({ error := some "No deposits in contract — nothing to draw or refund" },
     st)
  else if 0 < prizeFundChain then
    match drawCall with
    | none =>
      ({ error := some "execute_draw failed", drawSuccess := some false }, st)
    | some (h, w) =>
      recordAndPayout st pt (st.pools.get pt).yieldAccrued w
        { drawSuccess := some true, drawMode := some "onchain",
          drawHash := some h }
        (some h) useOnchainPayouts pay drawId prizeId now newNextDraw
  else
    recordAndPayout st pt 0 none
      { drawSuccess := some true, drawMode := some "principal-only",
        drawHash := none }
      none useOnchainPayouts pay drawId prizeId now newNextDraw

/-! ## Invariants and helper lemmas -/

/-- Contribution of one deposit record to the active balance of a pool. -/
def activeAmount (pt : PoolType) (d : Deposit) : ℚ :=
  if d.poolType = pt ∧ d.withdrawnAt = none then d.amount else 0

/-- Sum of the amounts of the non-withdrawn deposits of a pool — the
backend counterpart of the spec's Σ Balance. -/
def sumActive (pt : PoolType) (l : List Deposit) : ℚ :=
  (l.map (activeAmount pt)).sum

/-- Conservation of balance for the backend store: for every pool, the
sum of the amounts of its non-withdrawn deposits equals the pool's
`totalDeposited`. -/
def Conservation (st : Store) : Prop :=
  ∀ pt, sumActive pt st.deposits = (st.pools.get pt).totalDeposited

instance (st : Store) : Decidable (Conservation st) := by
  unfold Conservation; infer_instance

/-- The three store-mutating entry points of `routes/deposits.js`. -/
inductive StoreOp where
  | deposit (requester : String) (rawPoolType : Option String)
      (amount : Option ℚ) (txHash : Option String)
      (verification : Option Verified) (freshId : Nat)
  | withdraw (requester : String) (depId : Nat)
      (payOutcome : Option String) (now : Nat)
  | claimComplete (requester : String) (depId : Nat)
      (txHash : String) (now : Nat)

/-- The store after one entry point of `routes/deposits.js`. -/
def applyOp (op : StoreOp) (st : Store) : Store :=
  match op with
  | .deposit r pts a tx v fid => (postDeposit st r pts a tx v fid).2
  | .withdraw r i p n => (withdrawOp st r i p n).store
  | .claimComplete r i tx n => (claimCompleteOp st r i tx n).2

/-- A freshly generated uuid does not collide with a stored one (what
`uuidv4` provides to `routes/deposits.js` line 67). -/
def opFresh : StoreOp → Store → Prop
  | .deposit _ _ _ _ _ fid, st => ∀ d ∈ st.deposits, d.id ≠ fid
  | _, _ => True

theorem Pools.get_set (ps : Pools) (pt : PoolType) (p : Pool)
    (pt' : PoolType) :
    (ps.set pt p).get pt' = if pt' = pt then p else ps.get pt' := by
  cases pt <;> cases pt' <;> simp [Pools.get, Pools.set]

theorem sumActive_append (pt : PoolType) (l₁ l₂ : List Deposit) :
    sumActive pt (l₁ ++ l₂) = sumActive pt l₁ + sumActive pt l₂ := by
  simp [sumActive]

theorem sumActive_cons (pt : PoolType) (d : Deposit) (l : List Deposit) :
    sumActive pt (d :: l) = activeAmount pt d + sumActive pt l := by
  simp [sumActive]

theorem sumActive_nonneg (pt : PoolType) (l : List Deposit)
    (h : ∀ d ∈ l, 0 ≤ d.amount) : 0 ≤ sumActive pt l := by
  refine List.sum_nonneg ?_
  intro x hx
  obtain ⟨d, hd, rfl⟩ := List.mem_map.mp hx
  unfold activeAmount
  split
  · exact h d hd
  · exact le_refl 0

theorem updateDeposit_of_not_mem (l : List Deposit) (i : Nat)
    (f : Deposit → Deposit) (h : ∀ d ∈ l, d.id ≠ i) :
    updateDeposit l i f = l := by
  unfold updateDeposit
  calc l.map (fun d => if d.id = i then f d else d)
      = l.map id := List.map_congr_left (by
        intro d hd
        simp [h d hd])
    _ = l := List.map_id l

/-- A deposit found in a JS `Map` (unique keys) splits the entry list
into a prefix and suffix free of its key. -/
theorem exists_split_of_find (l : List Deposit) (i : Nat) (dep : Deposit)
    (hnodup : (l.map (·.id)).Nodup)
    (hfind : findDeposit l i = some dep) :
    dep.id = i ∧ ∃ s t, l = s ++ dep :: t ∧
      (∀ x ∈ s, x.id ≠ i) ∧ (∀ x ∈ t, x.id ≠ i) := by
  have hid : dep.id = i := by
    have := List.find?_some hfind
    simpa using this
  subst hid
  refine ⟨rfl, ?_⟩
  have hmem : dep ∈ l := List.mem_of_find?_eq_some hfind
  obtain ⟨s, t, rfl⟩ := List.mem_iff_append.mp hmem
  refine ⟨s, t, rfl, ?_, ?_⟩
  · intro x hx hxi
    rw [List.map_append] at hnodup
    have hdisj := (List.nodup_append.mp hnodup).2.2
    exact hdisj (a := x.id) (List.mem_map_of_mem _ hx)
      (by simp [hxi])
  · intro x hx hxi
    rw [List.map_append] at hnodup
    have hcons := (List.nodup_append.mp hnodup).2.1
    rw [List.map_cons, List.nodup_cons] at hcons
    exact hcons.1 (by rw [← hxi]; exact List.mem_map_of_mem _ hx)

theorem updateDeposit_split (s t : List Deposit) (dep : Deposit)
    (i : Nat) (f : Deposit → Deposit)
    (hs : ∀ x ∈ s, x.id ≠ i) (ht : ∀ x ∈ t, x.id ≠ i) (hdi : dep.id = i) :
    updateDeposit (s ++ dep :: t) i f = s ++ f dep :: t := by
  have h1 : updateDeposit s i f = s := updateDeposit_of_not_mem s i f hs
  have h2 : updateDeposit t i f = t := updateDeposit_of_not_mem t i f ht
  unfold updateDeposit at h1 h2 ⊢
  rw [List.map_append, List.map_cons, h1, h2, if_pos hdi]

/-- Marking one uniquely-keyed deposit moves the active sum by the
difference of its contributions. -/
theorem sumActive_update_split (pt : PoolType) (s t : List Deposit)
    (dep : Deposit) (i : Nat) (f : Deposit → Deposit)
    (hs : ∀ x ∈ s, x.id ≠ i) (ht : ∀ x ∈ t, x.id ≠ i) (hdi : dep.id = i) :
    sumActive pt (updateDeposit (s ++ dep :: t) i f)
      = sumActive pt (s ++ dep :: t)
        - activeAmount pt dep + activeAmount pt (f dep) := by
  rw [updateDeposit_split s t dep i f hs ht hdi]
  rw [sumActive_append, sumActive_append, sumActive_cons, sumActive_cons]
  ring

theorem conservation_withdraw (st : Store) (r : String) (i : Nat)
    (p : Option String) (now : Nat)
    (hamt : ∀ d ∈ st.deposits, 0 ≤ d.amount)
    (hnodup : (st.deposits.map (·.id)).Nodup)
    (hcons : Conservation st) :
    Conservation (withdrawOp st r i p now).store := by
  unfold withdrawOp
  cases hfind : findDeposit st.deposits i with
  | none => exact hcons
  | some dep =>
    by_cases hown : dep.publicKey ≠ r
    · simp only [if_pos hown]; exact hcons
    by_cases hw : dep.withdrawnAt ≠ none
    · simp only [if_neg hown, if_pos hw]; exact hcons
    cases p with
    | none => simp only [if_neg hown, if_neg hw]; exact hcons
    | some tx =>
      simp only [if_neg hown, if_neg hw]
      obtain ⟨hdi, s, t, hsplit, hsid, htid⟩ :=
        exists_split_of_find st.deposits i dep hnodup hfind
      have hwnone : dep.withdrawnAt = none := not_ne_iff.mp hw
      intro pt
      rw [Pools.get_set]
      have hupd := sumActive_update_split pt s t dep i
        (fun d => { d with withdrawnAt := some now, payoutAt := some now,
                           payoutTxHash := some tx,
                           payoutType := some "refund" }) hsid htid hdi
      rw [← hsplit] at hupd
      have hmarked : activeAmount pt
          { dep with withdrawnAt := some now, payoutAt := some now,
                     payoutTxHash := some tx,
                     payoutType := some "refund" } = 0 := by
        simp [activeAmount]
      by_cases hpt : pt = dep.poolType
      · rw [if_pos hpt]
         -- the pool of the withdrawn deposit: exact decrement
        have hactive : activeAmount pt dep = dep.amount := by
          simp [activeAmount, hpt.symm, hwnone]
        have hle : dep.amount ≤ sumActive pt st.deposits := by
          rw [hsplit, sumActive_append, sumActive_cons, hactive]
          have h0s : 0 ≤ sumActive pt s :=
            sumActive_nonneg pt s (fun d hd =>
              hamt d (by rw [hsplit]; exact List.mem_append_left _ hd))
          have h0t : 0 ≤ sumActive pt t :=
            sumActive_nonneg pt t (fun d hd =>
              hamt d (by rw [hsplit]
                         exact List.mem_append_right _ (List.mem_cons_of_mem _ hd)))
          linarith
        have hold := hcons pt
        rw [hupd, hmarked, hactive, hold]
        rw [hpt] at hold ⊢
        rw [max_eq_right (by rw [← hold, ← hpt]; linarith)]
        ring
      · rw [if_neg hpt]
        have hactive : activeAmount pt dep = 0 := by
          simp [activeAmount]
          intro h; exact absurd h.symm hpt
        rw [hupd, hmarked, hactive, hcons pt]
        ring

theorem conservation_claimComplete (st : Store) (r : String) (i : Nat)
    (tx : String) (now : Nat)
    (hamt : ∀ d ∈ st.deposits, 0 ≤ d.amount)
    (hnodup : (st.deposits.map (·.id)).Nodup)
    (hcons : Conservation st) :
    Conservation (claimCompleteOp st r i tx now).2 := by
  unfold claimCompleteOp
  cases hfind : findDeposit st.deposits i with
  | none => exact hcons
  | some dep =>
    by_cases hown : dep.publicKey ≠ r
    · simp only [if_pos hown]; exact hcons
    by_cases hw : dep.withdrawnAt ≠ none
    · simp only [if_neg hown, if_pos hw]; exact hcons
    by_cases htx : tx.trim = ""
    · simp only [if_neg hown, if_neg hw, if_pos htx]; exact hcons
    simp only [if_neg hown, if_neg hw, if_neg htx]
    obtain ⟨hdi, s, t, hsplit, hsid, htid⟩ :=
      exists_split_of_find st.deposits i dep hnodup hfind
    have hwnone : dep.withdrawnAt = none := not_ne_iff.mp hw
    intro pt
    rw [Pools.get_set]
    have hupd := sumActive_update_split pt s t dep i
      (fun d => { d with withdrawnAt := some now, payoutAt := some now,
                         payoutTxHash := some tx,
                         payoutType :=
                           if d.payoutType = some "win" then d.payoutType
                           else some "refund" }) hsid htid hdi
    rw [← hsplit] at hupd
    have hmarked : activeAmount pt
        { dep with withdrawnAt := some now, payoutAt := some now,
                   payoutTxHash := some tx,
                   payoutType :=
                     if dep.payoutType = some "win" then dep.payoutType
                     else some "refund" } = 0 := by
      simp [activeAmount]
    by_cases hpt : pt = dep.poolType
    · rw [if_pos hpt]
      have hactive : activeAmount pt dep = dep.amount := by
        simp [activeAmount, hpt.symm, hwnone]
      have hle : dep.amount ≤ sumActive pt st.deposits := by
        rw [hsplit, sumActive_append, sumActive_cons, hactive]
        have h0s : 0 ≤ sumActive pt s :=
          sumActive_nonneg pt s (fun d hd =>
            hamt d (by rw [hsplit]; exact List.mem_append_left _ hd))
        have h0t : 0 ≤ sumActive pt t :=
          sumActive_nonneg pt t (fun d hd =>
            hamt d (by rw [hsplit]
                       exact List.mem_append_right _ (List.mem_cons_of_mem _ hd)))
        linarith
      have hold := hcons pt
      rw [hupd, hmarked, hactive, hold]
      rw [hpt] at hold ⊢
      rw [max_eq_right (by rw [← hold, ← hpt]; linarith)]
      ring
    · rw [if_neg hpt]
      have hactive : activeAmount pt dep = 0 := by
        simp [activeAmount]
        intro h; exact absurd h.symm hpt
      rw [hupd, hmarked, hactive, hcons pt]
      ring

theorem conservation_deposit (st : Store) (r : String)
    (pts : Option String) (a : Option ℚ) (tx : Option String)
    (v : Option Verified) (fid : Nat)
    (hcons : Conservation st) :
    Conservation (postDeposit st r pts a tx v fid).2 := by
  unfold postDeposit
  cases hval : validateDeposit pts a tx with
  | some e => exact hcons
  | none =>
    cases hpt : parsePoolType (pts.getD "") with
    | none => cases a <;> cases tx <;> exact hcons
    | some pt =>
      cases a with
      | none => cases tx <;> exact hcons
      | some amt =>
        cases tx with
        | none => exact hcons
        | some txh =>
          cases v with
          | none => exact hcons
          | some vr =>
            by_cases hdep : vr.depositor ≠ r
            · simp only [if_pos hdep]; exact hcons
            simp only [if_neg hdep]
            intro pt'
            rw [Pools.get_set]
            rw [sumActive_append]
            by_cases hpt' : pt' = pt
            · rw [if_pos hpt']
              have : sumActive pt'
                  [{ id := fid, publicKey := vr.depositor, poolType := pt,
                     amount := amt, tickets := computeTickets amt pt,
                     withdrawnAt := none }] = amt := by
                simp [sumActive, activeAmount, hpt'.symm]
              rw [this, hcons pt', hpt']
            · rw [if_neg hpt']
              have : sumActive pt'
                  [{ id := fid, publicKey := vr.depositor, poolType := pt,
                     amount := amt, tickets := computeTickets amt pt,
                     withdrawnAt := none }] = 0 := by
                simp [sumActive, activeAmount]
                intro h; exact absurd h.symm hpt'
              rw [this, hcons pt', add_zero]

/-! ## Claim C3 -/

/-- C3 (amended): conservation of balance holds after each of the three
deposit-route entry points — deposit recording, withdraw, and
claim-complete: in a well-formed store (non-negative amounts, unique
ids, fresh uuid) whose active deposit sums match the pools'
`totalDeposited`, they still match after the operation.  (The draw
payout step is excluded: it marks deposits withdrawn without touching
`totalDeposited`, see the counterexample.) -/
theorem c3_conservation_amended (op : StoreOp) (st : Store)
    (hamt : ∀ d ∈ st.deposits, 0 ≤ d.amount)
    (hnodup : (st.deposits.map (·.id)).Nodup)
    (hfresh : opFresh op st)
    (hcons : Conservation st) :
    Conservation (applyOp op st) := by
  cases op with
  | deposit r pts a tx v fid =>
    exact conservation_deposit st r pts a tx v fid hcons
  | withdraw r i p n =>
    exact conservation_withdraw st r i p n hamt hnodup hcons
  | claimComplete r i tx n =>
    exact conservation_claimComplete st r i tx n hamt hnodup hcons

def emptyPool : Pool :=
  { totalDeposited := 0, participants := 0, yieldAccrued := 0,
    nextDraw := 0, prizeHistory := [] }

/-- A conserved store: one active weekly deposit of 100 XLM, matching
`totalDeposited = 100`. -/
def c3Store : Store :=
  { deposits := [{ id := 1, publicKey := "GA", poolType := .weekly,
                   amount := 100, tickets := 700 }],
    pools := { weekly := { totalDeposited := 100, participants := 1,
                           yieldAccrued := 0, nextDraw := 0,
                           prizeHistory := [] },
               biweekly := emptyPool, monthly := emptyPool },
    users := [("GA", { totalDeposited := 100, tickets := 700 })],
    draws := [], prizes := [] }

/-- The store after the cron draw run in admin-payout mode
(`USE_ONCHAIN_PAYOUTS=false`): prize fund 0, on-chain total deposits
10^9 stroops, payout succeeding with hash "ptxhash". -/
def c3After : Store :=
  (runDrawForPool c3Store .weekly 0 1000000000 false none
    (fun _ _ => some "ptxhash") 10 11 5 6).2

/-- C3 counterexample: the draw payout step of `_recordAndPayout`
(`cron-draw.js` lines 196-207) marks the refunded deposit withdrawn but
never decrements `pool.totalDeposited`, so a store that satisfied
conservation before the draw violates it afterwards. -/
theorem c3_counterexample :
    Conservation c3Store ∧ ¬ Conservation c3After := by
  constructor
  · intro pt
    cases pt <;>
      simp +decide [c3Store, emptyPool, sumActive, activeAmount, Pools.get]
  · intro h
    have h1 := h .weekly
    simp +decide [c3After, c3Store, emptyPool, runDrawForPool,
      recordAndPayout, applyPayoutMarks, processDrawPayouts, updateDeposit,
      markPaidOut, sumActive, activeAmount, Pools.get, Pools.set, jsOrOne,
      List.filterMap_cons, List.foldl_cons, List.foldl_nil] at h1

/-- C3 witness: the amended conservation theorem applied to a concrete
withdraw on the conserved one-deposit store. -/
theorem c3_witness :
    Conservation (applyOp (.withdraw "GA" 1 (some "wtx") 7) c3Store) :=
  c3_conservation_amended (.withdraw "GA" 1 (some "wtx") 7) c3Store
    (by intro d hd
        simp only [c3Store, List.mem_singleton] at hd
        norm_num [hd])
    (by simp [c3Store])
    (by trivial)
    (by intro pt
        cases pt <;>
          simp +decide [c3Store, emptyPool, sumActive, activeAmount,
            Pools.get])

/-! ## Claim C1 -/

/-- Two active weekly deposits: Alice deposited 0.1 XLM, which issued
`Math.floor(0.1 × 7) = 0` tickets; Bob deposited 1 XLM for 7 tickets. -/
def c1Deposits : List Deposit :=
  [{ id := 1, publicKey := "GA_ALICE", poolType := .weekly,
     amount := 1 / 10, tickets := 0 },
   { id := 2, publicKey := "GB_BOB", poolType := .weekly,
     amount := 1, tickets := 7 }]

/-- C1 counterexample: `pickWinner` builds `Math.max(1, d.tickets || 1)`
entries per deposit, so the depositor with zero tickets still gets one
entry in the selection pool — the pool does not contain "no entries for
a depositor with zero tickets", and the selection probability is
1/8, not 0/7. -/
theorem c1_counterexample :
    (∃ d ∈ c1Deposits, d.publicKey = "GA_ALICE" ∧ d.tickets = 0) ∧
    (pickWinnerPool c1Deposits).count "GA_ALICE" = 1 := by decide

/-- C1 (amended): when every active deposit carries at least one ticket,
the selection pool built by `pickWinner` contains exactly `tickets`
entries for each deposit — so the number of entries carrying a given
public key is that depositor's total ticket count, the pool length is
the total ticket count, and a uniform random index selects a depositor
with probability tickets/total.  (A zero-ticket deposit instead
contributes one entry, see the counterexample.) -/
theorem c1_pickWinner_amended (l : List Deposit) (key : String)
    (h : ∀ d ∈ l, 1 ≤ d.tickets) :
    (pickWinnerPool l).count key =
      ((l.filter (fun d => d.publicKey == key)).map
        (fun d => d.tickets.toNat)).sum ∧
    (pickWinnerPool l).length = (l.map (fun d => d.tickets.toNat)).sum := by
  induction l with
  | nil => simp [pickWinnerPool]
  | cons d l ih =>
    obtain ⟨ih1, ih2⟩ := ih (fun x hx => h x (List.mem_cons_of_mem _ hx))
    have hd1 : 1 ≤ d.tickets := h d (List.mem_cons_self d l)
    have hec : entryCount d = d.tickets.toNat := by
      unfold entryCount jsOrOne
      rw [if_neg (by omega), max_eq_right hd1]
    have hpool : pickWinnerPool (d :: l)
        = List.replicate (entryCount d) d.publicKey ++ pickWinnerPool l := by
      simp [pickWinnerPool]
    refine ⟨?_, ?_⟩
    · rw [hpool, List.count_append, List.count_replicate, ih1, hec]
      by_cases hk : d.publicKey == key
      · rw [if_pos hk]
        simp [List.filter_cons, hk]
      · rw [if_neg hk, zero_add]
        simp [List.filter_cons, hk]
    · rw [hpool, List.length_append, List.length_replicate, ih2, hec]
      simp

/-- Alice at 7 tickets, Bob at 21: all ticket counts positive. -/
def c1WitnessDeposits : List Deposit :=
  [{ id := 1, publicKey := "GA_ALICE", poolType := .weekly,
     amount := 1, tickets := 7 },
   { id := 2, publicKey := "GB_BOB", poolType := .weekly,
     amount := 3, tickets := 21 }]

/-- C1 witness: with Alice at 7 tickets and Bob at 21, the pool holds 21
entries for Bob. -/
theorem c1_witness :
    (pickWinnerPool c1WitnessDeposits).count "GB_BOB" = 21 := by
  obtain ⟨h1, _⟩ :=
    c1_pickWinner_amended c1WitnessDeposits "GB_BOB" (by decide)
  rw [h1]; decide

/-! ## Claim C2 -/

/-- C2 counterexample: a deposit of 0.5 XLM into the weekly pool issues
`Math.floor(0.5 × 7) = 3` tickets, not the exact product 3.5 — the
fractional half ticket is silently discarded. -/
theorem c2_counterexample :
    computeTickets (1 / 2) .weekly = 3 ∧
    ((computeTickets (1 / 2) .weekly : ℚ)
      ≠ (1 / 2 : ℚ) * (ticketMultiplier .weekly : ℚ)) := by
  constructor
  · norm_num [computeTickets, ticketMultiplier]
  · norm_num [computeTickets, ticketMultiplier]

/-- C2 (amended): tickets are issued as `⌊A × P⌋` with `P` = 7, 15, 30
for the weekly, biweekly and monthly pools; the result is an integer by
construction, and when the amount is a whole number of XLM the product
is exact (no rounding).  For fractional amounts, the fractional part of
`A × P` is discarded (see the counterexample). -/
theorem c2_tickets_amended (A : ℚ) (n : ℤ) (pt : PoolType) :
    computeTickets A .weekly = Int.floor (A * 7) ∧
    computeTickets A .biweekly = Int.floor (A * 15) ∧
    computeTickets A .monthly = Int.floor (A * 30) ∧
    computeTickets (n : ℚ) pt = n * ticketMultiplier pt := by
  refine ⟨?_, ?_, ?_, ?_⟩
  · norm_num [computeTickets, ticketMultiplier]
  · norm_num [computeTickets, ticketMultiplier]
  · norm_num [computeTickets, ticketMultiplier]
  · unfold computeTickets
    rw [show ((n : ℚ) * (ticketMultiplier pt : ℚ))
        = ((n * ticketMultiplier pt : ℤ) : ℚ) by push_cast; ring]
    exact Int.floor_intCast _

/-! ## Claim C9 -/

/-- C9 counterexample: 1/20000000 XLM (half a stroop) is a positive
number, yet the deposit route rejects it — the amount check is
`amount < 0.0000001`, not `amount ≤ 0`, so "rejects iff not positive"
fails in the only-if direction. -/
theorem c9_counterexample :
    ((0 : ℚ) < 1 / 20000000) ∧
    validateDeposit (some "weekly") (some (1 / 20000000)) (some "h")
      = some .badAmount := by
  refine ⟨by norm_num, ?_⟩
  have hlt : (1 / 20000000 : ℚ) < stroop := by norm_num [stroop]
  rw [one_div] at hlt
  simp +decide [validateDeposit, parsePoolType, hlt]

/-- C9 (amended): for a present pool type and transaction hash, the
deposit route's amount validation accepts iff the amount is at least one
stroop (10⁻⁷ XLM) — so it rejects every non-positive amount but also
every positive amount below one stroop; and every validation failure
leaves the store untouched and records no deposit. -/
theorem c9_deposit_validation_amended (ptS : String) (pt : PoolType)
    (txh : String) (a : ℚ) (rawPt : Option String) (amount : Option ℚ)
    (tx : Option String) (st : Store) (requester : String)
    (v : Option Verified) (fid : Nat) (e : DepositResponse)
    (hpt : parsePoolType ptS = some pt) (htx : txh ≠ "") :
    (validateDeposit (some ptS) (some a) (some txh) = none ↔ stroop ≤ a) ∧
    (validateDeposit rawPt amount tx = some e →
      postDeposit st requester rawPt amount tx v fid = (e, st)) := by
  have hne : ptS ≠ "" := by
    intro hem
    rw [hem] at hpt
    exact Option.noConfusion hpt
  constructor
  · unfold validateDeposit
    rw [if_neg (by simp [hne, htx]), if_neg (by simp [hpt])]
    simp only [Option.getD_some]
    by_cases hlt : a < stroop
    · simp [hlt, not_le.mpr hlt]
    · simp [hlt, not_lt.mp hlt]
  · intro hsome
    unfold postDeposit
    rw [hsome]

/-- An empty backend store. -/
def c9Store : Store :=
  { deposits := [],
    pools := { weekly := { totalDeposited := 0, participants := 0,
                           yieldAccrued := 0, nextDraw := 0,
                           prizeHistory := [] },
               biweekly := { totalDeposited := 0, participants := 0,
                             yieldAccrued := 0, nextDraw := 0,
                             prizeHistory := [] },
               monthly := { totalDeposited := 0, participants := 0,
                            yieldAccrued := 0, nextDraw := 0,
                            prizeHistory := [] } },
    users := [], draws := [], prizes := [] }

/-- C9 witness: 5 XLM passes validation; a zero amount is rejected with
the amount error and the store is unchanged. -/
theorem c9_witness :
    (validateDeposit (some "weekly") (some (5 : ℚ)) (some "h") = none) ∧
    postDeposit c9Store "GA" (some "weekly") (some (0 : ℚ)) (some "h")
      none 1 = (.badAmount, c9Store) := by
  have hzero : validateDeposit (some "weekly") (some (0 : ℚ)) (some "h")
      = some .badAmount := by
    have hlt : (0 : ℚ) < stroop := by norm_num [stroop]
    simp +decide [validateDeposit, parsePoolType, hlt]
  have h := c9_deposit_validation_amended "weekly" .weekly "h" 5
    (some "weekly") (some (0 : ℚ)) (some "h") c9Store "GA" none 1
    .badAmount rfl (by decide)
  exact ⟨h.1.mpr (by norm_num [stroop]), h.2 hzero⟩

/-! ## Claim C10 -/

/-- C10: the pool-contract module exports no `getTotalDeposits`, so the
on-chain read in GET /api/pools always throws and is caught: every pool
is reported with `prizeFundXlm` exactly 100 (the `MIN_PRIZE_XLM` floor)
and `totalDepositsXlm` exactly 0, whatever the chain holds; in
particular the reported prize never falls below the floor of 100. -/
theorem c10_pools_route :
    (poolContractExports.contains "getTotalDeposits") = false ∧
    (∀ pf td : ℤ, poolsRouteView pf td = (MIN_PRIZE_XLM, 0)) ∧
    (∀ pf td : ℤ, MIN_PRIZE_XLM ≤ (poolsRouteView pf td).1) := by
  have hview : ∀ pf td : ℤ, poolsRouteView pf td = (MIN_PRIZE_XLM, 0) := by
    intro pf td
    have hread : poolsOnChainRead pf td = (0, 0) := by
      simp +decide [poolsOnChainRead, callPoolContract, poolContractExports]
    rw [poolsRouteView, hread]
    norm_num [MIN_PRIZE_XLM]
  refine ⟨by decide, hview, ?_⟩
  intro pf td
  rw [hview pf td]

/-! ## Claim C4 -/

/-- A store with one active weekly deposit of 10 XLM. -/
def c4Store : Store :=
  { deposits := [{ id := 1, publicKey := "GA", poolType := .weekly,
                   amount := 10, tickets := 70 }],
    pools := { weekly := { totalDeposited := 10, participants := 1,
                           yieldAccrued := 0, nextDraw := 0,
                           prizeHistory := [] },
               biweekly := emptyPool, monthly := emptyPool },
    users := [("GA", { totalDeposited := 10, tickets := 70 })],
    draws := [], prizes := [] }

/-- The cron draw run on that store with PrizeFund = 0 and on-chain
total deposits 10^9 stroops. -/
def c4Run : RunResults × Store :=
  runDrawForPool c4Store .weekly 0 1000000000 true none
    (fun _ _ => none) 20 21 5 6

/-- C4 counterexample: with deposits present and PrizeFund = 0, the draw
pipeline does not abort with NoPrize — it reports success in
"principal-only" mode, skips the on-chain `execute_draw`, and still
records a draw. -/
theorem c4_counterexample :
    c4Run.1.error = none ∧
    c4Run.1.drawSuccess = some true ∧
    c4Run.1.drawMode = some "principal-only" ∧
    c4Run.1.drawHash = none ∧
    c4Run.2.draws.length = c4Store.draws.length + 1 := by
  refine ⟨?_, ?_, ?_, ?_, ?_⟩ <;>
    simp +decide [c4Run, c4Store, runDrawForPool, recordAndPayout]

/-- C4 (amended): the only precondition `runDrawForPool` checks is
`TotalDeposits > 0`, aborting with the "No deposits" error and no state
change; there is no tickets check, and when PrizeFund ≤ 0 the run skips
the on-chain `execute_draw` (no hash) yet still reports success in
"principal-only" mode and appends a draw record. -/
theorem c4_draw_preconditions_amended (st : Store) (pt : PoolType)
    (pf td : ℤ) (uo : Bool) (dc : Option (String × Option String))
    (pay : String → ℚ → Option String) (di pi no nd : Nat) :
    (td ≤ 0 →
      runDrawForPool st pt pf td uo dc pay di pi no nd
        = ({ error :=
              some "No deposits in contract — nothing to draw or refund" },
           st)) ∧
    (0 < td → pf ≤ 0 →
      (runDrawForPool st pt pf td uo dc pay di pi no nd).1.error = none ∧
      (runDrawForPool st pt pf td uo dc pay di pi no nd).1.drawMode
        = some "principal-only" ∧
      (runDrawForPool st pt pf td uo dc pay di pi no nd).1.drawHash
        = none ∧
      (runDrawForPool st pt pf td uo dc pay di pi no nd).2.draws.length
        = st.draws.length + 1) := by
  constructor
  · intro h
    unfold runDrawForPool
    rw [if_pos h]
  · intro h1 h2
    unfold runDrawForPool
    rw [if_neg (not_le.mpr h1), if_neg (not_lt.mpr h2)]
    refine ⟨?_, ?_, ?_, ?_⟩ <;> simp [recordAndPayout]

/-- C4 witness: with on-chain total deposits 0 the run aborts with the
"No deposits" error and an unchanged store. -/
theorem c4_witness :
    runDrawForPool c4Store .weekly 5 0 true none (fun _ _ => none)
      20 21 5 6
      = ({ error :=
            some "No deposits in contract — nothing to draw or refund" },
         c4Store) :=
  (c4_draw_preconditions_amended c4Store .weekly 5 0 true none
    (fun _ _ => none) 20 21 5 6).1 (by norm_num)

/-! ## Claim C5 -/

/-- C5: the withdraw route is all-or-nothing.  For an existing, owned,
still-active deposit: if the Horizon payment fails the route answers 502
and the store is exactly the one before the call (deposit still active,
totals and tickets untouched); only when the payment succeeds is the
deposit marked withdrawn and the pool total decremented by the deposit
amount. -/
theorem c5_withdraw_all_or_nothing (st : Store) (requester : String)
    (depId now : Nat) (dep : Deposit) (tx : String)
    (hfind : findDeposit st.deposits depId = some dep)
    (hown : dep.publicKey = requester)
    (hactive : dep.withdrawnAt = none)
    (hle : dep.amount ≤ (st.pools.get dep.poolType).totalDeposited) :
    ((withdrawOp st requester depId none now).store = st ∧
     (withdrawOp st requester depId none now).response = .paymentFailed) ∧
    ((withdrawOp st requester depId (some tx) now).response = .ok tx ∧
     (∀ d ∈ (withdrawOp st requester depId (some tx) now).store.deposits,
        d.id = depId → d.withdrawnAt = some now) ∧
     ((withdrawOp st requester depId (some tx) now).store.pools.get
        dep.poolType).totalDeposited
       = (st.pools.get dep.poolType).totalDeposited - dep.amount) := by
  have hred : ∀ (p : Option String),
      withdrawOp st requester depId p now
        = (match p with
           | none => ⟨.paymentFailed, st,
               some ⟨dep.publicKey, sendXLMPaymentAmount dep.amount⟩⟩
           | some tx' =>
             let deposits' := updateDeposit st.deposits depId (fun d =>
               { d with withdrawnAt := some now, payoutAt := some now,
                        payoutTxHash := some tx',
                        payoutType := some "refund" })
             let pool := st.pools.get dep.poolType
             let pool' :=
               { pool with
                   totalDeposited :=
                     max 0 (pool.totalDeposited - dep.amount),
                   participants :=
                     countUniqueParticipants dep.poolType deposits' }
             let users' := updateUser st.users requester (fun u =>
               { u with tickets := max 0 (u.tickets - dep.tickets) })
             ⟨.ok tx',
              { st with deposits := deposits',
                        pools := st.pools.set dep.poolType pool',
                        users := users' }, some ⟨dep.publicKey,
                          sendXLMPaymentAmount dep.amount⟩⟩) := by
    intro p
    unfold withdrawOp
    rw [hfind]
    dsimp only
    rw [if_neg (by simp [hown]), if_neg (by simp [hactive])]
  refine ⟨⟨?_, ?_⟩, ?_, ?_, ?_⟩
  · rw [hred none]
  · rw [hred none]
  · rw [hred (some tx)]
  · rw [hred (some tx)]
    intro d hd hdi
    simp only [updateDeposit, List.mem_map] at hd
    obtain ⟨d0, _, rfl⟩ := hd
    by_cases h0 : d0.id = depId
    · rw [if_pos h0]
    · rw [if_neg h0] at hdi ⊢
      exact absurd hdi h0
  · rw [hred (some tx)]
    simp only [Pools.get_set, if_pos rfl]
    exact max_eq_right (by linarith)

/-- A store with one active weekly deposit of 50 XLM matching the pool
total. -/
def c5Dep : Deposit :=
  { id := 1, publicKey := "GA", poolType := .weekly,
    amount := 50, tickets := 350 }

def c5Store : Store :=
  { deposits := [c5Dep],
    pools := { weekly := { totalDeposited := 50, participants := 1,
                           yieldAccrued := 0, nextDraw := 0,
                           prizeHistory := [] },
               biweekly := emptyPool, monthly := emptyPool },
    users := [("GA", { totalDeposited := 50, tickets := 350 })],
    draws := [], prizes := [] }

/-- C5 witness: on the concrete store, a failed payment leaves the store
unchanged, a successful one empties the pool total. -/
theorem c5_witness :
    (withdrawOp c5Store "GA" 1 none 9).store = c5Store ∧
    ((withdrawOp c5Store "GA" 1 (some "txh") 9).store.pools.get
      .weekly).totalDeposited = 0 := by
  have h := c5_withdraw_all_or_nothing c5Store "GA" 1 9 c5Dep "txh"
    rfl rfl rfl (by norm_num [c5Dep, c5Store, Pools.get])
  refine ⟨h.1.1, ?_⟩
  have h2 := h.2.2.2
  norm_num [c5Dep, c5Store, Pools.get] at h2
  exact h2

/-! ## Claim C8 -/

/-- C8: a settled deposit stays settled — once `withdrawnAt` is set,
both the withdraw route and the claim-complete route answer their
"already" error and return the store exactly as it was (deposit, pool
totals and user tickets unchanged). -/
theorem c8_single_claim (st : Store) (requester : String)
    (depId now ts : Nat) (payOutcome : Option String) (txb : String)
    (dep : Deposit)
    (hfind : findDeposit st.deposits depId = some dep)
    (hown : dep.publicKey = requester)
    (hw : dep.withdrawnAt = some ts) :
    withdrawOp st requester depId payOutcome now
      = ⟨.alreadyWithdrawn, st, none⟩ ∧
    claimCompleteOp st requester depId txb now = (.alreadyClaimed, st) := by
  constructor
  · unfold withdrawOp
    rw [hfind]
    dsimp only
    rw [if_neg (by simp [hown]), if_pos (by simp [hw])]
  · unfold claimCompleteOp
    rw [hfind]
    dsimp only
    rw [if_neg (by simp [hown]), if_pos (by simp [hw])]

/-- A store whose only deposit is already withdrawn. -/
def c8Dep : Deposit :=
  { id := 1, publicKey := "GA", poolType := .weekly,
    amount := 10, tickets := 70, withdrawnAt := some 3 }

def c8Store : Store :=
  { deposits := [c8Dep],
    pools := { weekly := { totalDeposited := 0, participants := 0,
                           yieldAccrued := 0, nextDraw := 0,
                           prizeHistory := [] },
               biweekly := emptyPool, monthly := emptyPool },
    users := [("GA", { totalDeposited := 10, tickets := 0 })],
    draws := [], prizes := [] }

/-- C8 witness: both routes reject the already-withdrawn deposit and
leave the store untouched. -/
theorem c8_witness :
    withdrawOp c8Store "GA" 1 (some "t2") 9
      = ⟨.alreadyWithdrawn, c8Store, none⟩ ∧
    claimCompleteOp c8Store "GA" 1 "t3" 9 = (.alreadyClaimed, c8Store) :=
  c8_single_claim c8Store "GA" 1 9 3 (some "t2") "t3" c8Dep rfl rfl rfl

/-! ## Claim C6 -/

/-- A deposit recorded with an 8-decimal amount (the deposit route
accepts any number ≥ 10⁻⁷, and verification trusts the client's
amount). -/
def c6Dep : Deposit :=
  { id := 1, publicKey := "GA", poolType := .weekly,
    amount := 12345678 / 100000000, tickets := 0 }

def c6Store : Store :=
  { deposits := [c6Dep],
    pools := { weekly := { totalDeposited := 12345678 / 100000000,
                           participants := 1, yieldAccrued := 0,
                           nextDraw := 0, prizeHistory := [] },
               biweekly := emptyPool, monthly := emptyPool },
    users := [], draws := [], prizes := [] }

/-- C6 counterexample: for a recorded amount of 0.12345678 XLM, the
withdraw route's Horizon payment carries `toFixed(7)` of the amount —
0.1234568 XLM — which is not the recorded deposit amount. -/
theorem c6_counterexample :
    c6Dep.amount = 12345678 / 100000000 ∧
    (withdrawOp c6Store "GA" 1 (some "tx") 9).payment
      = some ⟨"GA", 1234568 / 10000000⟩ ∧
    (1234568 / 10000000 : ℚ) ≠ (12345678 / 100000000 : ℚ) := by
  refine ⟨rfl, ?_, by norm_num⟩
  have hfind : findDeposit c6Store.deposits 1 = some c6Dep := rfl
  have hamt : sendXLMPaymentAmount (12345678 / 100000000 : ℚ)
      = 1234568 / 10000000 := by
    unfold sendXLMPaymentAmount toFixed7
    norm_num
  unfold withdrawOp
  rw [hfind]
  dsimp only
  rw [if_neg (by simp [c6Dep]), if_neg (by simp [c6Dep])]
  simp [c6Dep, hamt]

/-- C6 (amended): the withdraw route builds the refund payment to the
depositor over `toFixed(7)` of the recorded amount; whenever the
recorded amount is a whole number of stroops (a multiple of 10⁻⁷ XLM —
every on-chain-representable amount), the payment amount equals the
recorded deposit amount exactly. -/
theorem c6_withdraw_payment_amended (st : Store) (requester : String)
    (depId now : Nat) (dep : Deposit) (payOutcome : Option String)
    (hfind : findDeposit st.deposits depId = some dep)
    (hown : dep.publicKey = requester)
    (hactive : dep.withdrawnAt = none) :
    (withdrawOp st requester depId payOutcome now).payment
      = some ⟨dep.publicKey, sendXLMPaymentAmount dep.amount⟩ ∧
    ∀ k : ℤ, dep.amount = (k : ℚ) / 10000000 →
      sendXLMPaymentAmount dep.amount = dep.amount := by
  constructor
  · unfold withdrawOp
    rw [hfind]
    dsimp only
    rw [if_neg (by simp [hown]), if_neg (by simp [hactive])]
    cases payOutcome <;> rfl
  · intro k hk
    rw [hk]
    unfold sendXLMPaymentAmount toFixed7
    rw [div_mul_cancel₀ _ (by norm_num : (10000000 : ℚ) ≠ 0)]
    rw [add_comm, Int.floor_add_int]
    norm_num

/-- A deposit of exactly 25 XLM (250,000,000 stroops). -/
def c6wDep : Deposit :=
  { id := 2, publicKey := "GB", poolType := .weekly,
    amount := 25, tickets := 175 }

def c6wStore : Store :=
  { deposits := [c6wDep],
    pools := { weekly := { totalDeposited := 25, participants := 1,
                           yieldAccrued := 0, nextDraw := 0,
                           prizeHistory := [] },
               biweekly := emptyPool, monthly := emptyPool },
    users := [], draws := [], prizes := [] }

/-- C6 witness: the refund payment for a 25-XLM deposit is exactly
25 XLM. -/
theorem c6_witness :
    (withdrawOp c6wStore "GB" 2 none 9).payment
      = some ⟨"GB", (25 : ℚ)⟩ := by
  have h := c6_withdraw_payment_amended c6wStore "GB" 2 9 c6wDep none
    rfl rfl rfl
  have h2 := h.2 250000000 (by norm_num [c6wDep])
  rw [h.1, h2]
  rfl

/-! ## Claim C7 -/

/-- The balance-and-tickets view of a deposit record: id, owner, amount,
tickets. -/
def depProj (d : Deposit) : Nat × String × ℚ × ℤ :=
  (d.id, d.publicKey, d.amount, d.tickets)

theorem map_depProj_updateDeposit (l : List Deposit) (i : Nat)
    (f : Deposit → Deposit) (hf : ∀ d, depProj (f d) = depProj d) :
    (updateDeposit l i f).map depProj = l.map depProj := by
  unfold updateDeposit
  rw [List.map_map]
  refine List.map_congr_left ?_
  intro d _
  by_cases h : d.id = i
  · simp only [Function.comp_apply, if_pos h, hf d]
  · simp only [Function.comp_apply, if_neg h]

theorem map_depProj_applyPayoutMarks (winner : Option String) (now : Nat)
    (prs : List PayoutRes) (l : List Deposit) :
    (applyPayoutMarks winner now l prs).map depProj = l.map depProj := by
  induction prs generalizing l with
  | nil => rfl
  | cons pr prs ih =>
    have hstep : applyPayoutMarks winner now l (pr :: prs)
        = applyPayoutMarks winner now
            (match pr.depositId with
             | some i => updateDeposit l i (markPaidOut winner now pr)
             | none => l) prs := by
      unfold applyPayoutMarks
      rw [List.foldl_cons]
    rw [hstep]
    cases hpr : pr.depositId with
    | none => rw [ih l]
    | some i =>
      rw [ih (updateDeposit l i (markPaidOut winner now pr))]
      exact map_depProj_updateDeposit l i _ (fun d => rfl)

theorem map_depProj_recordAndPayout (st : Store) (pt : PoolType)
    (prize : ℚ) (winner : Option String) (r0 : RunResults)
    (cth : Option String) (uo : Bool)
    (pay : String → ℚ → Option String) (di pi no nd : Nat) :
    ((recordAndPayout st pt prize winner r0 cth uo pay
        di pi no nd).2.deposits).map depProj
      = st.deposits.map depProj := by
  unfold recordAndPayout
  dsimp only
  have hd1 : ∀ (l1 : List Deposit), l1.map depProj = st.deposits.map depProj →
      ∀ (prs : List PayoutRes),
      (if ¬uo = true ∧ st.deposits.filter
          (fun d => d.poolType = pt ∧ d.withdrawnAt = none) ≠ [] then
        applyPayoutMarks winner no l1 prs
      else l1).map depProj = st.deposits.map depProj := by
    intro l1 h1 prs
    split
    · rw [map_depProj_applyPayoutMarks, h1]
    · exact h1
  apply hd1
  cases winner with
  | none => rfl
  | some w =>
    cases cth with
    | none => rfl
    | some h =>
      dsimp only
      cases hf : st.deposits.find? (fun d =>
          d.poolType = pt ∧ d.withdrawnAt = none ∧ d.publicKey = w) with
      | none => rfl
      | some d0 =>
        exact map_depProj_updateDeposit st.deposits d0.id
          (fun d => { d with prizeTxHash := some h,
                             payoutType := some "win",
                             payoutAt := some no })
          (fun d => rfl)

/-- C7 (amended): the draw pipeline never alters any deposit's id,
owner, amount or ticket count — the winner keeps their principal and
tickets; and every payment built by `processDrawPayouts` is either the
prize (to the winner, of the prize amount) or a principal refund equal
to a listed deposit's amount paid to its owner — so in admin-payout mode
the prize is *not* the only outgoing transfer: principal refunds go out
too (see the counterexample). -/
theorem c7_principal_safety_amended :
    (∀ (st : Store) (pt : PoolType) (pf td : ℤ) (uo : Bool)
       (dc : Option (String × Option String))
       (pay : String → ℚ → Option String) (di pi no nd : Nat),
      ((runDrawForPool st pt pf td uo dc pay di pi no nd).2.deposits).map
          depProj
        = st.deposits.map depProj) ∧
    (∀ (prize : ℚ) (winner : Option String) (deps : List Deposit)
       (pay : String → ℚ → Option String) (r : PayoutRes),
      r ∈ processDrawPayouts prize winner deps pay →
      (r.kind = "prize" ∧ r.amount = prize ∧ some r.publicKey = winner) ∨
      (r.kind = "refund" ∧ ∃ d ∈ deps, r.depositId = some d.id ∧
        r.amount = d.amount ∧ r.publicKey = d.publicKey)) := by
  constructor
  · intro st pt pf td uo dc pay di pi no nd
    unfold runDrawForPool
    by_cases h1 : td ≤ 0
    · rw [if_pos h1]
    · rw [if_neg h1]
      by_cases h2 : 0 < pf
      · rw [if_pos h2]
        cases dc with
        | none => rfl
        | some hw =>
          obtain ⟨h, w⟩ := hw
          exact map_depProj_recordAndPayout st pt _ w _ (some h) uo pay
            di pi no nd
      · rw [if_neg h2]
        exact map_depProj_recordAndPayout st pt 0 none _ none uo pay
          di pi no nd
  · intro prize winner deps pay r hmem
    unfold processDrawPayouts at hmem
    rw [List.mem_append] at hmem
    rcases hmem with hmem | hmem
    · left
      cases winner with
      | none =>
        dsimp only at hmem
        simp at hmem
      | some w =>
        dsimp only at hmem
        by_cases hp : 0 < prize
        · rw [if_pos hp] at hmem
          rw [List.mem_singleton] at hmem
          subst hmem
          exact ⟨rfl, rfl, rfl⟩
        · rw [if_neg hp] at hmem
          simp at hmem
    · right
      rw [List.mem_filterMap] at hmem
      obtain ⟨d, hd, heq⟩ := hmem
      by_cases hc : d.publicKey ≠ "" ∧ 0 < d.amount
      · rw [if_pos hc] at heq
        obtain rfl := Option.some_injective _ heq
        exact ⟨rfl, d, hd, rfl, rfl, rfl⟩
      · rw [if_neg hc] at heq
        exact Option.noConfusion heq

/-- One active weekly deposit of 100 XLM owned by the winner. -/
def c7Deposits : List Deposit :=
  [{ id := 1, publicKey := "GA", poolType := .weekly,
     amount := 100, tickets := 700 }]

def c7Store : Store :=
  { deposits := c7Deposits,
    pools := { weekly := { totalDeposited := 100, participants := 1,
                           yieldAccrued := 5, nextDraw := 0,
                           prizeHistory := [] },
               biweekly := emptyPool, monthly := emptyPool },
    users := [], draws := [], prizes := [] }

/-- C7 counterexample: in admin-payout mode the draw's payout list for a
100-XLM depositor who wins a 5-XLM prize contains two outgoing
payments — the 5-XLM prize *and* a 100-XLM principal refund — so the
prize is not the only fund transferred out by the draw flow. -/
theorem c7_counterexample :
    (processDrawPayouts 5 (some "GA") c7Deposits (fun _ _ => some "h")).map
        (fun r => (r.kind, r.amount, r.txHash))
      = [("prize", 5, some "h"), ("refund", 100, some "h")] := by
  simp +decide [processDrawPayouts, c7Deposits]

/-- C7 witness: the frame part applied to a concrete on-chain draw, and
the payout characterization applied to the concrete prize entry. -/
theorem c7_witness :
    ((runDrawForPool c7Store .weekly 50000000 1000000000 true
        (some ("h", some "GA")) (fun _ _ => some "h") 1 2 3 4).2.deposits).map
        depProj
      = c7Store.deposits.map depProj ∧
    (let r : PayoutRes :=
      { depositId := none, publicKey := "GA", kind := "prize",
        amount := 5, txHash := some "h" }
     (r.kind = "prize" ∧ r.amount = 5 ∧ some r.publicKey = some "GA") ∨
     (r.kind = "refund" ∧ ∃ d ∈ c7Deposits, r.depositId = some d.id ∧
       r.amount = d.amount ∧ r.publicKey = d.publicKey)) :=
  ⟨c7_principal_safety_amended.1 c7Store .weekly 50000000 1000000000 true
      (some ("h", some "GA")) (fun _ _ => some "h") 1 2 3 4,
   c7_principal_safety_amended.2 5 (some "GA") c7Deposits
      (fun _ _ => some "h")
      { depositId := none, publicKey := "GA", kind := "prize",
        amount := 5, txHash := some "h" }
      (by decide)⟩

end LuckyStake
